import Mathlib

/-!
Verification of the computational core of the `ai2cursor` OpenAPI viewer
(`src/src/app/page.tsx`): the document validator (`parseOpenAPI`), the
operation index builder (`pathsByTag`), the example synthesizer
(`generateExampleFromSchema`) and the response example extractor
(`getResponseExample`).

The code is client-side TypeScript operating on `JSON.parse` output, so the
embedding models JavaScript runtime values (`JsValue`, including `undefined`),
JavaScript truthiness, property access, property assignment (overwrite in
place, append at end), `Object.assign`/spread enumeration, `String.replace`
of the first occurrence, and `String.includes`.  `generateExampleFromSchema`
recurses through `$ref` indirections with no cycle guard, so it is embedded
with an explicit fuel parameter: `Except.error Fault.outOfFuel` at every fuel
bound means the source function never returns (unbounded recursion /
stack overflow), and `Fault.thrown` models a thrown `TypeError`
(iterating a non-iterable `allOf`, or calling `.replace` on a non-string
`$ref`).  Numbers are modelled as integers; no claim under study performs
numeric arithmetic (numeric fields are only returned verbatim).
-/

namespace AI2Cursor

/-- JavaScript runtime values as produced by `JSON.parse` plus `undefined`,
which the synthesizer uses as its "no value" marker. -/
inductive JsValue where
  | undef
  | jsNull
  | bool (b : Bool)
  | num (n : Int)
  | str (s : String)
  | arr (xs : List JsValue)
  | obj (fields : List (String × JsValue))
deriving Repr

/-- JavaScript truthiness (`if (x)`).  `0`, `""`, `null`, `undefined`,
`false` are falsy; every array and object (including empty ones) is truthy. -/
def truthy : JsValue → Bool
  | JsValue.undef => false
  | JsValue.jsNull => false
  | JsValue.bool b => b
  | JsValue.num n => !(n == 0)
  | JsValue.str s => !(s == "")
  | JsValue.arr _ => true
  | JsValue.obj _ => true

/-- Whether the value is the `undefined` marker. -/
def JsValue.isUndef : JsValue → Bool
  | JsValue.undef => true
  | _ => false

/-- Whether the value is JavaScript `null`. -/
def JsValue.isNull : JsValue → Bool
  | JsValue.jsNull => true
  | _ => false

/-- Property access `v[k]` on an object: the first binding of the key, or
`undefined` when the key is absent or the value is not an object (property
access on primitives yields `undefined` for these keys). -/
def JsValue.get : JsValue → String → JsValue
  | JsValue.obj fields, k =>
      match fields.lookup k with
      | some v => v
      | none => JsValue.undef
  | _, _ => JsValue.undef

/-- Whether an object value carries the key (the JavaScript `in` operator). -/
def JsValue.hasKey : JsValue → String → Bool
  | JsValue.obj fields, k => fields.any (fun kv => kv.1 == k)
  | _, _ => false

/-- JavaScript `typeof x === "object"`: true for `null`, arrays and
objects. -/
def typeofObjLike : JsValue → Bool
  | JsValue.jsNull => true
  | JsValue.arr _ => true
  | JsValue.obj _ => true
  | _ => false

/-- Property assignment `target[k] = v`: overwrite the first existing binding
in place, otherwise append the binding at the end (JavaScript key order). -/
def setKey : List (String × JsValue) → String → JsValue → List (String × JsValue)
  | [], k, v => [(k, v)]
  | kv :: rest, k, v =>
      if kv.1 == k then (k, v) :: rest else kv :: setKey rest k v

/-- Own enumerable string-keyed entries of a value, as used by
`Object.entries`, `Object.assign` and object spread: an object's fields, an
array's index-keyed elements, a string's index-keyed characters, and nothing
for primitives. -/
def ownEntries : JsValue → List (String × JsValue)
  | JsValue.obj fields => fields
  | JsValue.arr xs => xs.enum.map (fun p => (toString p.1, p.2))
  | JsValue.str s => s.data.enum.map (fun p => (toString p.1, JsValue.str (String.singleton p.2)))
  | _ => []

/-- `Object.assign(target, src)` restricted to its effect on the field list:
copy every own enumerable entry of `src` into `target` in order. -/
def jsAssignFields (target : List (String × JsValue)) (src : JsValue) : List (String × JsValue) :=
  (ownEntries src).foldl (fun acc kv => setKey acc kv.1 kv.2) target

/-- The nullish-coalescing operator `a ?? b`. -/
def jsNullish (a b : JsValue) : JsValue :=
  if a.isUndef || a.isNull then b else a

/-- Iteration `for (x of v)`: arrays yield their elements, strings their
characters; other values are not iterable (a `TypeError` at runtime). -/
def jsIterate : JsValue → Option (List JsValue)
  | JsValue.arr xs => some xs
  | JsValue.str s => some (s.data.map (fun c => JsValue.str (String.singleton c)))
  | _ => none

mutual

/-- String coercion as performed by a template literal.  An array joins the
coercion of its elements with commas (with `null`/`undefined` elements
becoming empty), an object becomes the generic object tag. -/
def jsToString : JsValue → String
  | JsValue.undef => "undefined"
  | JsValue.jsNull => "null"
  | JsValue.bool true => "true"
  | JsValue.bool false => "false"
  | JsValue.num n => toString n
  | JsValue.str s => s
  | JsValue.arr xs => jsToStringList xs
  | JsValue.obj _ => "[object Object]"

/-- Comma join of array elements for `jsToString`. -/
def jsToStringList : List JsValue → String
  | [] => ""
  | [x] => jsToStringElem x
  | x :: rest => jsToStringElem x ++ "," ++ jsToStringList rest

/-- Element coercion inside an array join: `null` and `undefined` become
empty. -/
def jsToStringElem : JsValue → String
  | JsValue.undef => ""
  | JsValue.jsNull => ""
  | v => jsToString v

end

/-- First-occurrence string replacement, the semantics of JavaScript
`s.replace(pat, repl)` with a string pattern: only the first occurrence of
`pat` anywhere in `s` is replaced; if `pat` does not occur, `s` is returned
unchanged. -/
def replaceFirstAux (pat repl : List Char) : List Char → List Char
  | [] => []
  | c :: rest =>
      if List.isPrefixOf pat (c :: rest) then repl ++ (c :: rest).drop pat.length
      else c :: replaceFirstAux pat repl rest

/-- See `replaceFirstAux`; an empty pattern inserts the replacement at the
start, as in JavaScript. -/
def replaceFirst (s pat repl : String) : String :=
  if pat == "" then repl ++ s
  else String.mk (replaceFirstAux pat.data repl.data s.data)

/-- Substring test, the semantics of JavaScript `s.includes(pat)`. -/
def strContainsAux (pat : List Char) : List Char → Bool
  | [] => pat == []
  | c :: rest => List.isPrefixOf pat (c :: rest) || strContainsAux pat rest

/-- See `strContainsAux`. -/
def strContains (s pat : String) : Bool :=
  strContainsAux pat.data s.data

/-- Prefix test, the semantics of JavaScript `s.startsWith(pat)`. -/
def strStartsWith (s pat : String) : Bool :=
  List.isPrefixOf pat.data s.data

/-! ## Data model

Typed structures mirroring the output of the zod validator `OpenAPISchema`
(`page.tsx` lines 19-153) for the fields the claims touch.  Schema nodes are
kept as raw `JsValue`s because `generateExampleFromSchema` treats them as
untyped `any` values. -/

/-- One entry of an `examples` map: zod shape
`{ summary?: string, value: unknown }`.  `value = none` models an entry
whose `value` key is absent (the code tests presence with `in`). -/
structure ExampleObj where
  summary : Option String
  value : Option JsValue
deriving Repr

/-- One content-type entry of `requestBody.content` or `responses.*.content`:
zod shape `{ schema, example?, examples? }`.  `exampleField` is the literal
`example` field, `JsValue.undef` when absent. -/
structure ContentObj where
  schema : JsValue
  exampleField : JsValue
  examples : Option (List (String × ExampleObj))
deriving Repr

/-- One response object: `{ description?, content? }` (the 2.0 top-level
`schema`/`headers` fields are not consulted by the extractor). -/
structure ResponseObj where
  description : Option String
  content : Option (List (String × ContentObj))
deriving Repr

/-- A request body: `{ content, required?, description? }`. -/
structure RequestBodyObj where
  content : List (String × ContentObj)
  required : Option Bool
  description : Option String
deriving Repr

/-- An operation, with the validated fields the index builder and example
extractor consult. -/
structure Operation where
  summary : Option String
  description : Option String
  tags : Option (List String)
  requestBody : Option RequestBodyObj
  responses : List (String × ResponseObj)
deriving Repr

/-- The `info` object: `title` and `version` required. -/
structure OAInfo where
  title : String
  version : String
  description : Option String
deriving Repr

/-- A validated OpenAPI document.  `components` holds the
`components.schemas` map (3.0; `schemas` is required inside `components`),
`definitions` the 2.0 dialect map.  Schema values stay raw. -/
structure OADocument where
  info : OAInfo
  paths : List (String × List (String × Operation))
  components : Option (List (String × JsValue))
  definitions : Option (List (String × JsValue))
deriving Repr

/-! ## Example Synthesizer

`generateExampleFromSchema` (`page.tsx` lines 595-701), embedded with fuel.
-/

/-- Outcomes other than a value: `outOfFuel` at every fuel bound means the
source function recurses unboundedly; `thrown` models a `TypeError`. -/
inductive Fault where
  | outOfFuel
  | thrown
deriving Repr, DecidableEq

/-- Result of a synthesizer run. -/
abbrev JsResult := Except Fault JsValue

/-- Reference lookup
`apiDoc?.components?.schemas?.[name] ?? apiDoc?.definitions?.[name]`
(`page.tsx` line 627). -/
def refLookup (doc : OADocument) (name : String) : JsValue :=
  let c : JsValue :=
    match doc.components with
    | some schemas =>
        match schemas.lookup name with
        | some v => v
        | none => JsValue.undef
    | none => JsValue.undef
  if c.isUndef || c.isNull then
    match doc.definitions with
    | some defs =>
        match defs.lookup name with
        | some v => v
        | none => JsValue.undef
    | none => JsValue.undef
  else c

/-- Whether `schema.type` is the literal string `t`. -/
def tyIs (schema : JsValue) (t : String) : Bool :=
  match schema.get "type" with
  | JsValue.str s => s == t
  | _ => false

/-- Whether `schema.format` is the literal string `t`. -/
def fmtIs (schema : JsValue) (t : String) : Bool :=
  match schema.get "format" with
  | JsValue.str s => s == t
  | _ => false

/-- The test `schema.enum?.length > 0`: `.length` of an array or string, a
numeric `length` property of an object; `undefined > 0` is false. -/
def enumHasItems : JsValue → Bool
  | JsValue.arr xs => xs.length > 0
  | JsValue.str s => s.length > 0
  | JsValue.obj fields =>
      match (JsValue.obj fields).get "length" with
      | JsValue.num n => n > 0
      | _ => false
  | _ => false

/-- Index access `v[0]`. -/
def jsIndex0 : JsValue → JsValue
  | JsValue.arr xs =>
      match xs.head? with
      | some x => x
      | none => JsValue.undef
  | JsValue.str s =>
      match s.data.head? with
      | some c => JsValue.str (String.singleton c)
      | none => JsValue.undef
  | JsValue.obj fields => (JsValue.obj fields).get "0"
  | _ => JsValue.undef

/-- The declared-properties loop of the object branch (`page.tsx` lines
644-652): synthesize each property in declaration order and keep only
results that are not `undefined`. -/
def synthProps (g : JsValue → JsResult) (props : JsValue) :
    Except Fault (List (String × JsValue)) :=
  (ownEntries props).foldlM
    (fun acc kv => do
      let v ← g kv.2
      pure (if v.isUndef then acc else setKey acc kv.1 v))
    []

/-- The part of `generateExampleFromSchema` after the `example`, `allOf` and
resolvable-`$ref` branches (`page.tsx` lines 641-700): the object, array and
base-type cases.  `g` is the recursive call at one less fuel. -/
def genBase (g : JsValue → JsResult) (schema : JsValue) : JsResult :=
  if tyIs schema "object" || truthy (schema.get "properties") then do
    let fields0 ←
      if truthy (schema.get "properties") then synthProps g (schema.get "properties")
      else pure []
    let ap := schema.get "additionalProperties"
    let fields1 ←
      if truthy ap && typeofObjLike ap then do
        let e ← g ap
        pure (setKey (setKey (setKey fields0 "additionalProp1" e) "additionalProp2" e)
          "additionalProp3" e)
      else pure fields0
    let c := jsNullish (schema.get "title") (schema.get "description")
    Except.ok (JsValue.obj (if truthy c then setKey fields1 "__comment" c else fields1))
  else if tyIs schema "array" && truthy (schema.get "items") then do
    let ie ← g (schema.get "items")
    Except.ok (if ie.isUndef then JsValue.arr [] else JsValue.arr [ie])
  else if tyIs schema "string" then
    if fmtIs schema "date" then Except.ok (JsValue.str "2025-04-18")
    else if fmtIs schema "date-time" then Except.ok (JsValue.str "2025-04-18T00:00:00")
    else if enumHasItems (schema.get "enum") then Except.ok (jsIndex0 (schema.get "enum"))
    else if truthy (schema.get "title") then
      Except.ok (JsValue.str ("示例" ++ jsToString (schema.get "title")))
    else if truthy (schema.get "description") then
      Except.ok (JsValue.str ("示例" ++ jsToString (schema.get "description")))
    else Except.ok (JsValue.str "string")
  else if tyIs schema "number" || tyIs schema "integer" then
    Except.ok
      (if !(schema.get "default").isUndef then schema.get "default"
       else if !(schema.get "minimum").isUndef then schema.get "minimum"
       else if !(schema.get "maximum").isUndef then schema.get "maximum"
       else JsValue.num 0)
  else if tyIs schema "boolean" then
    Except.ok (if !(schema.get "default").isUndef then schema.get "default"
      else JsValue.bool false)
  else if tyIs schema "null" then Except.ok JsValue.jsNull
  else
    Except.ok (if !(schema.get "default").isUndef then schema.get "default"
      else JsValue.undef)

/-- `generateExampleFromSchema` (`page.tsx` lines 595-701).  Branches in
source order: falsy schema, literal `example`, `allOf` merge, `$ref`
resolution (falling through to the remaining branches when the target is
absent), then `genBase`. -/
def genExample (doc : OADocument) : Nat → JsValue → JsResult
  | 0, _ => Except.error Fault.outOfFuel
  | Nat.succ fuel, schema =>
    let g := genExample doc fuel
    if !(truthy schema) then Except.ok JsValue.jsNull
    else if !(schema.get "example").isUndef then Except.ok (schema.get "example")
    else if truthy (schema.get "allOf") then
      match jsIterate (schema.get "allOf") with
      | none => Except.error Fault.thrown
      | some subs => do
        let fields0 ←
          subs.foldlM
            (fun acc sub => do
              let se ← g sub
              pure (if typeofObjLike se && !se.isNull then jsAssignFields acc se else acc))
            []
        let fields1 ←
          if truthy (schema.get "properties") then do
            let pe ← g (JsValue.obj
              [("type", JsValue.str "object"),
               ("properties", schema.get "properties"),
               ("required", schema.get "required")])
            pure (jsAssignFields fields0 pe)
          else pure fields0
        Except.ok (JsValue.obj fields1)
    else if truthy (schema.get "$ref") then
      match schema.get "$ref" with
      | JsValue.str s =>
        let refSchema := refLookup doc (replaceFirst s "#/components/schemas/" "")
        if truthy refSchema then do
          let re ← g refSchema
          let c := jsNullish (schema.get "title") (schema.get "description")
          if truthy c then Except.ok (JsValue.obj (setKey (ownEntries re) "__comment" c))
          else Except.ok re
        else genBase g schema
      | _ => Except.error Fault.thrown
    else genBase g schema

/-! ## Operation Index Builder

`pathsByTag` (`page.tsx` lines 415-438) and the tag collection that seeds
the collapse state in `parseOpenAPI` (`page.tsx` lines 232-251). -/

/-- The `{ path, method, operation }` record pushed into tag buckets. -/
structure OperationRec where
  path : String
  method : String
  operation : Operation
deriving Repr

/-- The effective tag list of one operation:
`operation.tags ?? [defaultTag]` (`page.tsx` line 423).  Note that `??` is
nullish coalescing, so a present-but-empty list stays empty. -/
def effTags (op : Operation) : List String :=
  op.tags.getD ["default"]

/-- `result[tag] ??= []; result[tag].push(rec)`: append the record to the
tag's bucket, creating the bucket at the end on first use (JavaScript object
key insertion order). -/
def addToBucket (m : List (String × List OperationRec)) (tag : String)
    (r : OperationRec) : List (String × List OperationRec) :=
  match m with
  | [] => [(tag, [r])]
  | b :: rest =>
      if b.1 == tag then (b.1, b.2 ++ [r]) :: rest
      else b :: addToBucket rest tag r

/-- `pathsByTag` (`page.tsx` lines 415-438): iterate paths, methods within a
path, then the operation's effective tags, pushing the record into each
tag's bucket. -/
def pathsByTag (paths : List (String × List (String × Operation))) :
    List (String × List OperationRec) :=
  paths.foldl
    (fun acc pkv =>
      pkv.2.foldl
        (fun acc2 mkv =>
          (effTags mkv.2).foldl
            (fun acc3 tag =>
              addToBucket acc3 tag
                { path := pkv.1, method := mkv.1, operation := mkv.2 })
            acc2)
        acc)
    []

/-- Insertion-ordered set `add` used for the tag `Set` in `parseOpenAPI`. -/
def addIfAbsent (l : List String) (t : String) : List String :=
  if l.contains t then l else l ++ [t]

/-- The tag collection of `parseOpenAPI` (`page.tsx` lines 232-244), which
seeds the collapse state: an operation contributes its tags when
`operation.tags && operation.tags.length > 0`, and the `"default"` tag
otherwise (so also when the tag list is present but empty). -/
def collectTags (paths : List (String × List (String × Operation))) : List String :=
  paths.foldl
    (fun acc pkv =>
      pkv.2.foldl
        (fun acc2 mkv =>
          match mkv.2.tags with
          | some ts =>
              if ts.length > 0 then ts.foldl addIfAbsent acc2
              else addIfAbsent acc2 "default"
          | none => addIfAbsent acc2 "default")
        acc)
    []

/-- Flat list of all `{ path, method, operation }` records in traversal
order (paths in order, methods within a path in order). -/
def allRecords (paths : List (String × List (String × Operation))) :
    List OperationRec :=
  paths.flatMap (fun pkv =>
    pkv.2.map (fun mkv => { path := pkv.1, method := mkv.1, operation := mkv.2 }))

/-- The contents of one tag's bucket in an index, empty when the bucket does
not exist. -/
def bucketRecords (m : List (String × List OperationRec)) (tag : String) :
    List OperationRec :=
  (m.lookup tag).getD []

/-! ## Example Extractor (response side)

`getResponseExample` (`page.tsx` lines 520-575). -/

/-- The `find` predicate over `content.examples` entries (`page.tsx` lines
537-543): the entry must carry a `value` key, and either `value.code === 200`
or the entry key contains the substring `"success"`. -/
def isSuccessEntry (kv : String × ExampleObj) : Bool :=
  match kv.2.value with
  | some v =>
      (match v.get "code" with
       | JsValue.num n => n == 200
       | _ => false) || strContains kv.1 "success"
  | none => false

/-- The record `{ code, contentType, example, summary? }` returned by
`getResponseExample`. -/
structure RespExample where
  code : String
  contentType : String
  exampleVal : JsValue
  summary : Option String
deriving Repr

/-- `getResponseExample` (`page.tsx` lines 520-575): pick the first response
whose status key starts with `"2"`, then its first content-type entry, then
in order: a success-matching `examples` entry, the literal `example` field
(truthiness test), synthesis from `schema` (truthiness test); `none` when
nothing applies. -/
def getResponseExample (doc : OADocument) (fuel : Nat) (op : Operation) :
    Except Fault (Option RespExample) :=
  match op.responses.find? (fun kv => strStartsWith kv.1 "2") with
  | none => Except.ok none
  | some (code, response) =>
    match response.content with
    | none => Except.ok none
    | some cs =>
      match cs.head? with
      | none => Except.ok none
      | some (contentType, content) =>
        match (match content.examples with
               | some exs => exs.find? isSuccessEntry
               | none => none :
                Option (String × ExampleObj)) with
        | some (_, ex) =>
            Except.ok (some
              { code := code, contentType := contentType,
                exampleVal :=
                  match ex.value with
                  | some v => v
                  | none => JsValue.undef,
                summary := ex.summary })
        | none =>
          if truthy content.exampleField then
            Except.ok (some
              { code := code, contentType := contentType,
                exampleVal := content.exampleField, summary := none })
          else if truthy content.schema then do
            let v ← genExample doc fuel content.schema
            Except.ok (some
              { code := code, contentType := contentType,
                exampleVal := v, summary := none })
          else Except.ok none

/-! ## Document Validator

`parseOpenAPI` (`page.tsx` lines 223-258) with the structural shape of the
zod validator `OpenAPISchema` (lines 109-151), at the depth the claims
exercise: required `info.title`, `info.version` and `paths`; operations with
required `responses`; content entries with a required object `schema`;
optional `components.schemas` / `definitions` maps of object schema nodes.
Validation failure carries the failing field path and a message, rendered
into the single error string the page displays. -/

/-- A structural violation: the first failing field path and its message. -/
structure ValErr where
  path : String
  message : String
deriving Repr

/-- Validation result. -/
abbrev Validation (α : Type) := Except ValErr α

/-- Raise a structural violation. -/
def vErr {α : Type} (path message : String) : Validation α :=
  Except.error { path := path, message := message }

/-- Require a string. -/
def expectString (v : JsValue) (path : String) : Validation String :=
  match v with
  | JsValue.str s => Except.ok s
  | _ => vErr path "Expected string"

/-- Optional string field (absent is fine). -/
def expectOptString (v : JsValue) (path : String) : Validation (Option String) :=
  match v with
  | JsValue.undef => Except.ok none
  | JsValue.str s => Except.ok (some s)
  | _ => vErr path "Expected string"

/-- Optional boolean field. -/
def expectOptBool (v : JsValue) (path : String) : Validation (Option Bool) :=
  match v with
  | JsValue.undef => Except.ok none
  | JsValue.bool b => Except.ok (some b)
  | _ => vErr path "Expected boolean"

/-- Require an object (`z.object` / `z.record` reject non-objects). -/
def expectObjFields (v : JsValue) (path : String) :
    Validation (List (String × JsValue)) :=
  match v with
  | JsValue.obj fields => Except.ok fields
  | _ => vErr path "Expected object"

/-- Optional `z.array(z.string())` field. -/
def expectOptStringArray (v : JsValue) (path : String) :
    Validation (Option (List String)) :=
  match v with
  | JsValue.undef => Except.ok none
  | JsValue.arr xs => do
      let ss ← xs.mapM (fun x => expectString x path)
      Except.ok (some ss)
  | _ => vErr path "Expected array"

/-- One `examples` map entry: `{ summary?, value }` with `z.unknown()`
value, recorded as present or absent. -/
def validateExampleObj (v : JsValue) (path : String) : Validation ExampleObj := do
  let _ ← expectObjFields v path
  let s ← expectOptString (v.get "summary") (path ++ ".summary")
  Except.ok
    { summary := s,
      value := if v.hasKey "value" then some (v.get "value") else none }

/-- One content-type entry `{ schema, example?, examples? }`: `schema` is
required and must be an object (a `SchemaObject` or a `$ref` wrapper, both
objects with optional fields); the raw schema node is kept for the
synthesizer. -/
def validateContentObj (v : JsValue) (path : String) : Validation ContentObj := do
  let _ ← expectObjFields v path
  let _ ← expectObjFields (v.get "schema") (path ++ ".schema")
  let exs ←
    match v.get "examples" with
    | JsValue.undef => Except.ok none
    | ev => do
        let fields ← expectObjFields ev (path ++ ".examples")
        let l ← fields.mapM (fun kv => do
          let e ← validateExampleObj kv.2 (path ++ ".examples." ++ kv.1)
          Except.ok (kv.1, e))
        Except.ok (some l)
  Except.ok { schema := v.get "schema", exampleField := v.get "example", examples := exs }

/-- One response object `{ description?, content? }`. -/
def validateResponse (v : JsValue) (path : String) : Validation ResponseObj := do
  let _ ← expectObjFields v path
  let d ← expectOptString (v.get "description") (path ++ ".description")
  let c ←
    match v.get "content" with
    | JsValue.undef => Except.ok none
    | cv => do
        let fields ← expectObjFields cv (path ++ ".content")
        let l ← fields.mapM (fun kv => do
          let co ← validateContentObj kv.2 (path ++ ".content." ++ kv.1)
          Except.ok (kv.1, co))
        Except.ok (some l)
  Except.ok { description := d, content := c }

/-- A request body `{ content, required?, description? }` with required
`content` record. -/
def validateRequestBody (v : JsValue) (path : String) : Validation RequestBodyObj := do
  let _ ← expectObjFields v path
  let fields ← expectObjFields (v.get "content") (path ++ ".content")
  let cs ← fields.mapM (fun kv => do
    let co ← validateContentObj kv.2 (path ++ ".content." ++ kv.1)
    Except.ok (kv.1, co))
  let r ← expectOptBool (v.get "required") (path ++ ".required")
  let d ← expectOptString (v.get "description") (path ++ ".description")
  Except.ok { content := cs, required := r, description := d }

/-- One operation object, with required `responses` record. -/
def validateOperation (v : JsValue) (path : String) : Validation Operation := do
  let _ ← expectObjFields v path
  let s ← expectOptString (v.get "summary") (path ++ ".summary")
  let d ← expectOptString (v.get "description") (path ++ ".description")
  let ts ← expectOptStringArray (v.get "tags") (path ++ ".tags")
  let rb ←
    match v.get "requestBody" with
    | JsValue.undef => Except.ok none
    | rv => do
        let b ← validateRequestBody rv (path ++ ".requestBody")
        Except.ok (some b)
  let rs ← expectObjFields (v.get "responses") (path ++ ".responses")
  let responses ← rs.mapM (fun kv => do
    let r ← validateResponse kv.2 (path ++ ".responses." ++ kv.1)
    Except.ok (kv.1, r))
  Except.ok
    { summary := s, description := d, tags := ts, requestBody := rb,
      responses := responses }

/-- A named map of schema nodes (`components.schemas` / `definitions`): each
value must be an object, kept raw. -/
def validateSchemaMap (v : JsValue) (path : String) :
    Validation (List (String × JsValue)) := do
  let fields ← expectObjFields v path
  fields.mapM (fun kv => do
    let _ ← expectObjFields kv.2 (path ++ "." ++ kv.1)
    Except.ok kv)

/-- `OpenAPISchema.parse` (`page.tsx` lines 109-151): the whole-document
structural validation, producing a typed `OADocument` or the first
violation. -/
def validate (v : JsValue) : Validation OADocument := do
  let _ ← expectObjFields v ""
  let infoV := v.get "info"
  let _ ← expectObjFields infoV "info"
  let title ← expectString (infoV.get "title") "info.title"
  let version ← expectString (infoV.get "version") "info.version"
  let idesc ← expectOptString (infoV.get "description") "info.description"
  let pfields ← expectObjFields (v.get "paths") "paths"
  let paths ← pfields.mapM (fun pkv => do
    let mfields ← expectObjFields pkv.2 ("paths." ++ pkv.1)
    let methods ← mfields.mapM (fun mkv => do
      let op ← validateOperation mkv.2 ("paths." ++ pkv.1 ++ "." ++ mkv.1)
      Except.ok (mkv.1, op))
    Except.ok (pkv.1, methods))
  let comps ←
    match v.get "components" with
    | JsValue.undef => Except.ok none
    | cv => do
        let _ ← expectObjFields cv "components"
        let m ← validateSchemaMap (cv.get "schemas") "components.schemas"
        Except.ok (some m)
  let defs ←
    match v.get "definitions" with
    | JsValue.undef => Except.ok none
    | dv => do
        let m ← validateSchemaMap dv "definitions"
        Except.ok (some m)
  Except.ok
    { info := { title := title, version := version, description := idesc },
      paths := paths, components := comps, definitions := defs }

/-- Render a structural violation into the displayed error string, the way
the caught validation error surfaces its field path and message. -/
def renderErr (e : ValErr) : String :=
  e.path ++ ": " ++ e.message

/-- The state transition of `parseOpenAPI` (`page.tsx` lines 223-258) on the
produced `(apiDoc, error)` pair.  The input is the outcome of `JSON.parse`
on the raw text: `Except.error msg` when the text is not JSON (the thrown
parser message), `Except.ok j` with the parsed value otherwise.  On any
failure the catch block sets `apiDoc` to `null` and `error` to the thrown
message; on success `apiDoc` becomes the validated document and `error`
stays `null`. -/
def parseOpenAPI (input : Except String JsValue) :
    Option OADocument × Option String :=
  match input with
  | Except.error msg => (none, some msg)
  | Except.ok j =>
    match validate j with
    | Except.ok doc => (some doc, none)
    | Except.error e => (none, some (renderErr e))

/-! ## Concrete fixtures used by witnesses and counterexamples -/

/-- A document with no schemas and no paths. -/
def emptyDoc : OADocument :=
  { info := { title := "t", version := "1", description := none },
    paths := [], components := none, definitions := none }

/-- A schema node that is only a reference to component schema `A`. -/
def refToA : JsValue := JsValue.obj [("$ref", JsValue.str "#/components/schemas/A")]

/-- A schema node that is only a reference to component schema `B`. -/
def refToB : JsValue := JsValue.obj [("$ref", JsValue.str "#/components/schemas/B")]

/-- A document whose component schema `A` references `B` and `B` references
back to `A`. -/
def cyclicDocAB : OADocument :=
  { info := { title := "t", version := "1", description := none },
    paths := [],
    components := some [("A", refToB), ("B", refToA)],
    definitions := none }

/-- A document whose component schema `A` references itself. -/
def selfRefDoc : OADocument :=
  { info := { title := "t", version := "1", description := none },
    paths := [],
    components := some [("A", refToA)],
    definitions := none }

/-- An object schema with an ordinary string property `good` and a property
`bad` that references the cyclic component schema `A`. -/
def parentWithCycle : JsValue :=
  JsValue.obj
    [("type", JsValue.str "object"),
     ("properties", JsValue.obj
       [("good", JsValue.obj [("type", JsValue.str "string")]),
        ("bad", refToA)])]

/-- Divergence of the synthesizer on one input: at every fuel bound the run
is cut off, i.e. the source function recurses unboundedly (at runtime, a
stack overflow) instead of returning. -/
def synthDiverges (doc : OADocument) (schema : JsValue) : Prop :=
  ∀ fuel : Nat, genExample doc fuel schema = Except.error Fault.outOfFuel

/-- An operation whose declared tag list is present but empty, with a
minimal valid `responses` map. -/
def opEmptyTags : Operation :=
  { summary := none, description := none, tags := some [],
    requestBody := none,
    responses := [("200", { description := some "ok", content := none })] }

/-- A raw JSON document (as parsed) whose single operation declares
`"tags": []`. -/
def jsonEmptyTags : JsValue :=
  JsValue.obj
    [("info", JsValue.obj [("title", JsValue.str "T"), ("version", JsValue.str "1")]),
     ("paths", JsValue.obj
       [("/pets", JsValue.obj
         [("get", JsValue.obj
           [("tags", JsValue.arr []),
            ("responses", JsValue.obj
              [("200", JsValue.obj [("description", JsValue.str "ok")])])])])])]

/-- The validated form of `jsonEmptyTags`. -/
def docEmptyTags : OADocument :=
  { info := { title := "T", version := "1", description := none },
    paths :=
      [("/pets",
        [("get",
          { summary := none, description := none, tags := some ([] : List String),
            requestBody := none,
            responses := [("200", { description := some "ok", content := none })] })])],
    components := none, definitions := none }

/-- An operation whose only response (status `200`) carries, in its first
content-type entry, both a literal `example` and an `examples` map with a
success-keyed entry whose value differs from the literal `example`. -/
def opBothExamples : Operation :=
  { summary := none, description := none, tags := none, requestBody := none,
    responses :=
      [("200",
        { description := none,
          content := some
            [("application/json",
              { schema := JsValue.obj [("type", JsValue.str "string")],
                exampleField := JsValue.str "LIT",
                examples := some
                  [("success",
                    { summary := none, value := some (JsValue.str "FROMMAP") })] })] })] }

/-- An operation with no 2xx response at all. -/
def opNo2xx : Operation :=
  { summary := none, description := none, tags := none, requestBody := none,
    responses := [("404", { description := some "not found", content := none })] }

/-- A content entry with a literal `example` `"L"` and no `examples` map. -/
def contentL : ContentObj :=
  { schema := JsValue.obj [("type", JsValue.str "string")],
    exampleField := JsValue.str "L",
    examples := none }

/-- A `201` response whose content has a literal `example` and no
`examples` map. -/
def resp201 : ResponseObj :=
  { description := none,
    content := some [("application/json", contentL)] }

/-- An operation whose 2xx response content has a literal `example` and no
`examples` map. -/
def opLiteralOnly : Operation :=
  { summary := none, description := none, tags := none, requestBody := none,
    responses := [("201", resp201)] }

/-- Two operations tagged `["A", "B"]` and `["B"]` respectively, on two
paths, for the index-builder witness. -/
def pathsTwoTags : List (String × List (String × Operation)) :=
  [("/x",
    [("get",
      { summary := none, description := none, tags := some ["A", "B"],
        requestBody := none,
        responses := [("200", { description := none, content := none })] })]),
   ("/y",
    [("post",
      { summary := none, description := none, tags := some ["B"],
        requestBody := none,
        responses := [("200", { description := none, content := none })] })])]

/-! ## Helper lemmas -/

/-- Bind of a successful `Except` computation. -/
theorem except_bind_ok {ε α β : Type} (a : α) (f : α → Except ε β) :
    (Except.ok a : Except ε α) >>= f = f a := rfl

/-- A positive `tyIs` test pins down the `type` field. -/
theorem tyIs_str {schema : JsValue} {a : String} (h : tyIs schema a = true) :
    schema.get "type" = JsValue.str a := by
  unfold tyIs at h
  cases hv : schema.get "type" <;> rw [hv] at h <;> simp_all [beq_iff_eq]

/-- A `type` field equal to one string fails the `tyIs` test for any other
string. -/
theorem tyIs_of_ne {schema : JsValue} {a b : String}
    (h : schema.get "type" = JsValue.str a) (hne : a ≠ b) :
    tyIs schema b = false := by
  unfold tyIs
  rw [h]
  simpa [beq_iff_eq] using hne

/-- Assigning a key that is not yet bound appends the binding at the end. -/
theorem setKey_eq_append {l : List (String × JsValue)} {k : String} (v : JsValue)
    (h : ∀ kv ∈ l, kv.1 ≠ k) : setKey l k v = l ++ [(k, v)] := by
  induction l with
  | nil => rfl
  | cons kv rest ih =>
    have h1 : (kv.1 == k) = false := by
      simpa [beq_iff_eq] using h kv (by simp)
    simp only [setKey, h1, Bool.false_eq_true, if_false, List.cons_append,
      List.cons.injEq, true_and]
    exact ih (fun x hx => h x (by simp [hx]))

/-- Binding the pure continuation returns the computation unchanged. -/
theorem except_bind_id {ε α : Type} (x : Except ε α) :
    (x >>= fun a => Except.ok a) = x := by
  cases x <;> rfl

/-- Unfolding of the synthesizer on a bare reference node `{ "$ref": s }`
with a nonempty reference string: when the target resolves to a truthy
schema the run continues on the target at one less fuel (the node has no
`title`/`description`, so no comment wrapper is added), otherwise it falls
through to the base branches. -/
theorem genExample_bare_ref (doc : OADocument) (fuel : Nat) (s : String)
    (hs : (s == "") = false) :
    genExample doc (fuel + 1) (JsValue.obj [("$ref", JsValue.str s)]) =
      (if truthy (refLookup doc (replaceFirst s "#/components/schemas/" "")) then
        genExample doc fuel (refLookup doc (replaceFirst s "#/components/schemas/" ""))
       else genBase (genExample doc fuel) (JsValue.obj [("$ref", JsValue.str s)])) := by
  have hex : (JsValue.obj [("$ref", JsValue.str s)]).get "example" = JsValue.undef := rfl
  have hallof : (JsValue.obj [("$ref", JsValue.str s)]).get "allOf" = JsValue.undef := rfl
  have href : (JsValue.obj [("$ref", JsValue.str s)]).get "$ref" = JsValue.str s := rfl
  have hti : (JsValue.obj [("$ref", JsValue.str s)]).get "title" = JsValue.undef := rfl
  have hde : (JsValue.obj [("$ref", JsValue.str s)]).get "description" = JsValue.undef := rfl
  have htr : truthy (JsValue.obj [("$ref", JsValue.str s)]) = true := rfl
  simp only [genExample, hex, hallof, href, hti, hde, htr, JsValue.isUndef,
    Bool.not_true, Bool.not_false, Bool.false_eq_true, if_false, if_true,
    truthy, hs, jsNullish]
  split
  · next h => simp [except_bind_id]
  · rfl

/-- On the self-referencing document, synthesizing the reference to `A`
exhausts every fuel bound. -/
theorem selfRef_diverges : ∀ fuel : Nat,
    genExample selfRefDoc fuel refToA = Except.error Fault.outOfFuel := by
  intro fuel
  induction fuel with
  | zero => rfl
  | succ n ih =>
    have hA := genExample_bare_ref selfRefDoc n "#/components/schemas/A" (by decide)
    rw [show refToA = JsValue.obj [("$ref", JsValue.str "#/components/schemas/A")] from rfl,
      hA, if_pos (show truthy (refLookup selfRefDoc
        (replaceFirst "#/components/schemas/A" "#/components/schemas/" "")) = true from rfl)]
    exact ih

/-- A concrete string-typed schema synthesizes to the placeholder string at
any positive fuel. -/
theorem genExample_string_schema (doc : OADocument) (fuel : Nat) :
    genExample doc (fuel + 1) (JsValue.obj [("type", JsValue.str "string")]) =
      Except.ok (JsValue.str "string") := rfl

/-- Unfolding of the synthesizer on an object node
`{ "type": "object", "properties": P }` with truthy `P` and no other fields:
the run is the declared-properties loop over `P`, wrapped into an object. -/
theorem genExample_simple_object (doc : OADocument) (fuel : Nat) (P : JsValue)
    (hP : truthy P = true) :
    genExample doc (fuel + 1)
        (JsValue.obj [("type", JsValue.str "object"), ("properties", P)]) =
      (synthProps (genExample doc fuel) P) >>=
        (fun fields0 => Except.ok (JsValue.obj fields0)) := by
  simp only [genExample,
    show truthy (JsValue.obj [("type", JsValue.str "object"), ("properties", P)])
      = true from rfl,
    show (JsValue.obj [("type", JsValue.str "object"), ("properties", P)]).get "example"
      = JsValue.undef from rfl,
    show (JsValue.obj [("type", JsValue.str "object"), ("properties", P)]).get "allOf"
      = JsValue.undef from rfl,
    show (JsValue.obj [("type", JsValue.str "object"), ("properties", P)]).get "$ref"
      = JsValue.undef from rfl]
  simp only [genBase,
    show tyIs (JsValue.obj [("type", JsValue.str "object"), ("properties", P)]) "object"
      = true from rfl,
    show (JsValue.obj [("type", JsValue.str "object"), ("properties", P)]).get "properties"
      = P from rfl,
    show (JsValue.obj [("type", JsValue.str "object"),
      ("properties", P)]).get "additionalProperties" = JsValue.undef from rfl,
    show (JsValue.obj [("type", JsValue.str "object"), ("properties", P)]).get "title"
      = JsValue.undef from rfl,
    show (JsValue.obj [("type", JsValue.str "object"), ("properties", P)]).get "description"
      = JsValue.undef from rfl,
    hP]
  simp [truthy, jsNullish, bind, Except.bind, pure, Except.pure,
    show JsValue.undef.isUndef = true from rfl, typeofObjLike]

/-- The two-property case of the declared-properties loop: a first property
synthesizing to `undefined` is dropped and the loop continues with the
second. -/
theorem synthProps_pair (g : JsValue → JsResult) (k1 k2 : String)
    (s1 s2 v : JsValue)
    (h1 : g s1 = Except.ok JsValue.undef) (h2 : g s2 = Except.ok v)
    (hv : v.isUndef = false) :
    synthProps g (JsValue.obj [(k1, s1), (k2, s2)]) = Except.ok [(k2, v)] := by
  simp [synthProps, ownEntries, List.foldlM, h1, h2, except_bind_ok, hv,
    show JsValue.undef.isUndef = true from rfl, setKey,
    bind, Except.bind, pure, Except.pure]

/-- Effect of one bucket insertion on every bucket's contents: the chosen
tag's bucket gains the record at its end, every other bucket is unchanged. -/
theorem bucketRecords_addToBucket (m : List (String × List OperationRec))
    (tag t : String) (r : OperationRec) :
    bucketRecords (addToBucket m tag r) t =
      if t = tag then bucketRecords m t ++ [r] else bucketRecords m t := by
  induction m with
  | nil =>
    by_cases h : t = tag
    · subst h
      simp [addToBucket, bucketRecords, List.lookup]
    · simp [addToBucket, bucketRecords, List.lookup, h, beq_false_of_ne h]
  | cons b rest ih =>
    by_cases hb : b.1 = tag
    · have hbeq : (b.1 == tag) = true := beq_iff_eq.mpr hb
      by_cases ht : t = b.1
      · have ht2 : t = tag := ht.trans hb
        subst ht
        simp [addToBucket, hbeq, bucketRecords, List.lookup, ht2]
      · have ht2 : t ≠ tag := fun hc => ht (hc.trans hb.symm)
        simp [addToBucket, hbeq, bucketRecords, List.lookup,
          beq_false_of_ne ht, ht2]
    · have hbeq : (b.1 == tag) = false := beq_false_of_ne hb
      by_cases ht : t = b.1
      · have ht2 : t ≠ tag := fun hc => hb ((ht.symm.trans hc).symm ▸ rfl)
        subst ht
        simp [addToBucket, hbeq, bucketRecords, List.lookup, ht2]
      · simp only [addToBucket, hbeq, Bool.false_eq_true, if_false]
        by_cases htag : t = tag
        · subst htag
          have ih2 := ih
          rw [if_pos rfl] at ih2
          simpa [bucketRecords, List.lookup, beq_false_of_ne ht] using ih2
        · have ih2 := ih
          rw [if_neg htag] at ih2
          rw [if_neg htag]
          simpa [bucketRecords, List.lookup, beq_false_of_ne ht] using ih2

/-- Folding one record's tag list into the index: the bucket of `t` gains
one copy of the record per occurrence of `t` in the tag list, at the end. -/
theorem bucketRecords_foldl_tags (tags : List String) (r : OperationRec)
    (acc : List (String × List OperationRec)) (t : String) :
    bucketRecords (tags.foldl (fun a tag => addToBucket a tag r) acc) t =
      bucketRecords acc t ++ List.replicate (tags.count t) r := by
  induction tags generalizing acc with
  | nil => simp
  | cons tag rest ih =>
    rw [List.foldl_cons, ih, bucketRecords_addToBucket]
    by_cases h : t = tag
    · subst h
      simp [List.count_cons, List.replicate_succ, List.append_assoc]
    · simp [List.count_cons, beq_false_of_ne (fun hc => h hc.symm), h]

/-- The records contributed to bucket `t` by one `{path, methods}` entry. -/
def methodContrib (p : String) (methods : List (String × Operation)) (t : String) :
    List OperationRec :=
  methods.flatMap (fun mkv =>
    List.replicate ((effTags mkv.2).count t)
      { path := p, method := mkv.1, operation := mkv.2 })

/-- Folding one path's methods into the index appends each method's
contribution to bucket `t`. -/
theorem bucketRecords_foldl_methods (p : String) (methods : List (String × Operation))
    (acc : List (String × List OperationRec)) (t : String) :
    bucketRecords
        (methods.foldl
          (fun acc2 mkv =>
            (effTags mkv.2).foldl
              (fun a tag =>
                addToBucket a tag { path := p, method := mkv.1, operation := mkv.2 })
              acc2)
          acc) t =
      bucketRecords acc t ++ methodContrib p methods t := by
  induction methods generalizing acc with
  | nil => simp [methodContrib]
  | cons mkv rest ih =>
    rw [List.foldl_cons, ih, bucketRecords_foldl_tags]
    simp [methodContrib, List.append_assoc]

/-- Bucket contents of the whole index: bucket `t` holds, in traversal
order, one copy of each record per occurrence of `t` in its operation's
effective tag list. -/
theorem bucketRecords_pathsByTag (paths : List (String × List (String × Operation)))
    (t : String) :
    bucketRecords (pathsByTag paths) t =
      (allRecords paths).flatMap
        (fun r => List.replicate ((effTags r.operation).count t) r) := by
  suffices h : ∀ acc,
      bucketRecords
        (paths.foldl
          (fun acc pkv =>
            pkv.2.foldl
              (fun acc2 mkv =>
                (effTags mkv.2).foldl
                  (fun acc3 tag =>
                    addToBucket acc3 tag
                      { path := pkv.1, method := mkv.1, operation := mkv.2 })
                  acc2)
              acc)
          acc) t =
        bucketRecords acc t ++
          (allRecords paths).flatMap
            (fun r => List.replicate ((effTags r.operation).count t) r) by
    simpa [pathsByTag, bucketRecords] using h []
  induction paths with
  | nil => simp [allRecords]
  | cons pkv rest ih =>
    intro acc
    rw [List.foldl_cons, ih, bucketRecords_foldl_methods]
    simp [allRecords, methodContrib, List.append_assoc, List.flatMap_map,
      Function.comp]

/-! ## Claims -/

/-- Claim C7 (confirmed): every tag's bucket holds exactly the
`{path, method, operation}` records — by value and in traversal order, which
is the within-bucket insertion order — of the operations whose effective tag
list contains that tag.  In particular an operation declaring tags
`["A", "B"]` appears, by value, in both bucket `A` and bucket `B`, and an
operation with `N` distinct tags appears in all `N` buckets.  The hypothesis
excludes an operation declaring the same tag twice (the source would push
the record twice into that bucket). -/
theorem claim_C7_buckets (paths : List (String × List (String × Operation)))
    (t : String)
    (h : ∀ r ∈ allRecords paths, (effTags r.operation).count t ≤ 1) :
    bucketRecords (pathsByTag paths) t =
      (allRecords paths).filter (fun r => (effTags r.operation).contains t) := by
  rw [bucketRecords_pathsByTag]
  generalize hl : allRecords paths = l at h
  clear hl
  induction l with
  | nil => rfl
  | cons r rest ih =>
    have hr := h r (by simp)
    have hrest : ∀ x ∈ rest, (effTags x.operation).count t ≤ 1 :=
      fun x hx => h x (by simp [hx])
    simp only [List.flatMap_cons, List.filter_cons]
    by_cases hm : t ∈ effTags r.operation
    · have hpos : 0 < (effTags r.operation).count t := List.count_pos_iff.mpr hm
      have hone : (effTags r.operation).count t = 1 := Nat.le_antisymm hr hpos
      have hcont : (effTags r.operation).contains t = true := by
        simpa [List.contains] using List.elem_iff.mpr hm
      rw [hone, hcont]
      simp [ih hrest]
    · have hzero : (effTags r.operation).count t = 0 := List.count_eq_zero.mpr hm
      have hcont : (effTags r.operation).contains t = false := by
        rcases hb : (effTags r.operation).contains t with _ | _
        · rfl
        · exact absurd (List.elem_iff.mp hb) hm
      rw [hzero, hcont]
      simp [ih hrest]

/-- Witness for claim C7: two concrete operations tagged `["A","B"]` and
`["B"]`; bucket `B` holds both records, in traversal order. -/
theorem claim_C7_witness :
    (∀ r ∈ allRecords pathsTwoTags, (effTags r.operation).count "B" ≤ 1)
    ∧ bucketRecords (pathsByTag pathsTwoTags) "B" =
        (allRecords pathsTwoTags).filter
          (fun r => (effTags r.operation).contains "B") :=
  ⟨by decide, claim_C7_buckets pathsTwoTags "B" (by decide)⟩

/-- Claim C8 (confirmed): an operation whose responses contain no entry with
a status key textually starting with `"2"` yields no response example
(`none`, not an error), and when such entries exist, the first one in the
responses' entry order is the one selected: any produced response example
carries its status code. -/
theorem claim_C8_first_2xx (doc : OADocument) (fuel : Nat) (op : Operation) :
    ((∀ kv ∈ op.responses, strStartsWith kv.1 "2" = false) →
      getResponseExample doc fuel op = Except.ok none)
    ∧ (∀ code resp,
        op.responses.find? (fun kv => strStartsWith kv.1 "2") = some (code, resp) →
        ∀ res, getResponseExample doc fuel op = Except.ok (some res) →
          res.code = code) := by
  constructor
  · intro hall
    have hf : op.responses.find? (fun kv => strStartsWith kv.1 "2") = none := by
      rw [List.find?_eq_none]
      intro kv hkv
      simp [hall kv hkv]
    simp [getResponseExample, hf]
  · intro code resp hf res hres
    unfold getResponseExample at hres
    split at hres
    · next heq =>
      rw [hf] at heq
      exact Option.noConfusion heq
    · next code' resp' heq =>
      rw [hf] at heq
      injection heq with heq2
      have hcode : code = code' := congrArg Prod.fst heq2
      subst hcode
      split at hres
      · simp at hres
      · split at hres
        · simp at hres
        · split at hres
          · simp only [Except.ok.injEq, Option.some.injEq] at hres
            rw [← hres]
          · split at hres
            · simp only [Except.ok.injEq, Option.some.injEq] at hres
              rw [← hres]
            · split at hres
              · rcases hbind : genExample doc fuel _ with e | v
                · rw [hbind] at hres
                  simp [bind, Except.bind] at hres
                · rw [hbind] at hres
                  simp only [bind, Except.bind, Except.ok.injEq,
                    Option.some.injEq] at hres
                  rw [← hres]
              · simp at hres

/-- Witness for claim C8: a concrete operation with only a `404` response
yields `Except.ok none`, and on an operation whose first 2xx entry is `201`,
any produced example carries code `201`. -/
theorem claim_C8_witness :
    ((∀ kv ∈ opNo2xx.responses, strStartsWith kv.1 "2" = false)
      ∧ getResponseExample emptyDoc 1 opNo2xx = Except.ok none)
    ∧ (∀ res, getResponseExample emptyDoc 1 opLiteralOnly = Except.ok (some res) →
        res.code = "201") :=
  ⟨⟨by decide, (claim_C8_first_2xx emptyDoc 1 opNo2xx).1 (by decide)⟩,
   fun res hres =>
    (claim_C8_first_2xx emptyDoc 1 opLiteralOnly).2 "201" resp201 rfl res hres⟩

/-- Claim C4 counterexample: when the first 2xx response's first
content-type entry carries both a literal `example` (`"LIT"`) and an
`examples` map with a success-matching entry (value `"FROMMAP"`), the
extractor returns the `examples` entry — the literal `example` field does
not come first in the precedence, contrary to the claim. -/
theorem claim_C4_counterexample :
    getResponseExample emptyDoc 1 opBothExamples =
      Except.ok (some
        { code := "200", contentType := "application/json",
          exampleVal := JsValue.str "FROMMAP", summary := none })
    ∧ JsValue.str "FROMMAP" ≠ JsValue.str "LIT" := by
  refine ⟨rfl, ?_⟩
  intro h
  injection h with h
  exact absurd h (by decide)

/-- Claim C4 (amended): within the first content-type entry of the chosen
2xx response the precedence is: first, the first `examples` entry whose key
contains `"success"` or whose `value.code === 200` (entries not matching
this test are skipped, never used); then a truthy literal `example` field;
and only last a value synthesized from the schema (when the `schema` field
is truthy). -/
theorem claim_C4_amended (doc : OADocument) (fuel : Nat) (op : Operation)
    (code : String) (resp : ResponseObj) (cs : List (String × ContentObj))
    (ct : String) (content : ContentObj)
    (hfind : op.responses.find? (fun kv => strStartsWith kv.1 "2") = some (code, resp))
    (hcs : resp.content = some cs)
    (hhead : cs.head? = some (ct, content)) :
    (∀ exs k ex, content.examples = some exs →
        exs.find? isSuccessEntry = some (k, ex) →
        getResponseExample doc fuel op =
          Except.ok (some
            { code := code, contentType := ct,
              exampleVal := ex.value.getD JsValue.undef, summary := ex.summary }))
    ∧ ((∀ exs, content.examples = some exs → exs.find? isSuccessEntry = none) →
        truthy content.exampleField = true →
        getResponseExample doc fuel op =
          Except.ok (some
            { code := code, contentType := ct,
              exampleVal := content.exampleField, summary := none }))
    ∧ ((∀ exs, content.examples = some exs → exs.find? isSuccessEntry = none) →
        truthy content.exampleField = false →
        truthy content.schema = true →
        getResponseExample doc fuel op =
          (genExample doc fuel content.schema) >>= (fun v =>
            Except.ok (some
              { code := code, contentType := ct,
                exampleVal := v, summary := none }))) := by
  refine ⟨?_, ?_, ?_⟩
  · intro exs k ex he hfex
    simp only [getResponseExample, hfind, hcs, hhead, he, hfex]
    rcases ex.value with _ | v <;> rfl
  · intro hnone htr
    have hfe : (match content.examples with
                | some exs => exs.find? isSuccessEntry
                | none => none : Option (String × ExampleObj)) = none := by
      rcases hce : content.examples with _ | exs
      · rfl
      · simpa using hnone exs hce
    simp only [getResponseExample, hfind, hcs, hhead, hfe, htr, if_true]
  · intro hnone htr hsch
    have hfe : (match content.examples with
                | some exs => exs.find? isSuccessEntry
                | none => none : Option (String × ExampleObj)) = none := by
      rcases hce : content.examples with _ | exs
      · rfl
      · simpa using hnone exs hce
    simp only [getResponseExample, hfind, hcs, hhead, hfe, htr, hsch,
      Bool.false_eq_true, if_false, if_true]

/-- Witness for claim C4 (amended) at a concrete operation whose only
content entry has a literal `example` and no `examples` map: the literal
example is returned. -/
theorem claim_C4_witness :
    getResponseExample emptyDoc 1 opLiteralOnly =
      Except.ok (some
        { code := "201", contentType := "application/json",
          exampleVal := JsValue.str "L", summary := none }) :=
  (claim_C4_amended emptyDoc 1 opLiteralOnly "201" resp201
      [("application/json", contentL)] "application/json" contentL
      rfl rfl rfl).2.1
    (fun _ h => Option.noConfusion h) rfl

/-- Claim C3 (confirmed): for every parser outcome handed to `parseOpenAPI`
(with the parser's own failure messages nonempty, as `JSON.parse` messages
are), either validation succeeds and the typed document is stored with a
`null` error, or the stored document is `null` — never partially populated —
and the error is a nonempty message from the parser or from the structural
violation. -/
theorem claim_C3_all_or_nothing (input : Except String JsValue)
    (hparser : ∀ m, input = Except.error m → m ≠ "") :
    (∃ j doc, input = Except.ok j ∧ validate j = Except.ok doc ∧
      parseOpenAPI input = (some doc, none))
    ∨ ((parseOpenAPI input).1 = none ∧
        ∃ m, (parseOpenAPI input).2 = some m ∧ m ≠ "") := by
  rcases input with m | j
  · exact Or.inr ⟨rfl, m, rfl, hparser m rfl⟩
  · rcases hv : validate j with e | doc
    · refine Or.inr ⟨by simp [parseOpenAPI, hv], renderErr e,
        by simp [parseOpenAPI, hv], ?_⟩
      intro hc
      unfold renderErr at hc
      have h2 := congrArg String.length hc
      simp [String.length_append] at h2
      exact absurd h2.1.2 (by decide)
    · exact Or.inl ⟨j, doc, rfl, hv, by simp [parseOpenAPI, hv]⟩

/-- Witness for claim C3 at the parser outcome for the JSON text `3`
(valid JSON, structurally invalid document). -/
theorem claim_C3_witness :
    (∃ j doc, (Except.ok (JsValue.num 3) : Except String JsValue) = Except.ok j
      ∧ validate j = Except.ok doc
      ∧ parseOpenAPI (Except.ok (JsValue.num 3)) = (some doc, none))
    ∨ ((parseOpenAPI (Except.ok (JsValue.num 3))).1 = none
      ∧ ∃ m, (parseOpenAPI (Except.ok (JsValue.num 3))).2 = some m ∧ m ≠ "") :=
  claim_C3_all_or_nothing (Except.ok (JsValue.num 3))
    (fun _ h => Except.noConfusion h)

/-- Claim C1 (code bug evidence): on the document whose component schema `A`
references `B` and `B` references back to `A`, synthesizing the reference to
`A` (and to `B`) exhausts every recursion bound: `generateExampleFromSchema`
threads no visited-name set, so it recurses `A → B → A → …` unboundedly (a
runtime stack overflow) instead of detecting the cycle within bounded call
depth. -/
theorem claim_C1_cycle_unbounded : ∀ fuel : Nat,
    genExample cyclicDocAB fuel refToA = Except.error Fault.outOfFuel
    ∧ genExample cyclicDocAB fuel refToB = Except.error Fault.outOfFuel := by
  intro fuel
  induction fuel with
  | zero => exact ⟨rfl, rfl⟩
  | succ n ih =>
    have hA := genExample_bare_ref cyclicDocAB n "#/components/schemas/A" (by decide)
    have hB := genExample_bare_ref cyclicDocAB n "#/components/schemas/B" (by decide)
    constructor
    · rw [show refToA = JsValue.obj [("$ref", JsValue.str "#/components/schemas/A")] from rfl,
        hA, if_pos (show truthy (refLookup cyclicDocAB
          (replaceFirst "#/components/schemas/A" "#/components/schemas/" "")) = true from rfl)]
      exact ih.2
    · rw [show refToB = JsValue.obj [("$ref", JsValue.str "#/components/schemas/B")] from rfl,
        hB, if_pos (show truthy (refLookup cyclicDocAB
          (replaceFirst "#/components/schemas/B" "#/components/schemas/" "")) = true from rfl)]
      exact ih.1

/-- Claim C6 counterexample: on an object schema with a healthy sibling
property `good` and a property `bad` referencing the cyclic component schema
`A`, the synthesizer does not degrade the cyclic branch and continue with
the sibling — the whole synthesis exhausts every recursion bound and never
produces output (at runtime, the recursion raises a stack-overflow error).
-/
theorem claim_C6_counterexample : synthDiverges selfRefDoc parentWithCycle := by
  intro fuel
  cases fuel with
  | zero => rfl
  | succ n =>
    cases n with
    | zero => rfl
    | succ m =>
      have hgood := genExample_string_schema selfRefDoc m
      have hbad := selfRef_diverges (m + 1)
      have hprops : synthProps (genExample selfRefDoc (m + 1))
          (JsValue.obj
            [("good", JsValue.obj [("type", JsValue.str "string")]),
             ("bad", refToA)]) = Except.error Fault.outOfFuel := by
        simp [synthProps, ownEntries, List.foldlM, hgood, hbad,
          bind, Except.bind, pure, Except.pure,
          show (JsValue.str "string").isUndef = false from rfl, setKey]
      show genExample selfRefDoc (m + 1 + 1) parentWithCycle = Except.error Fault.outOfFuel
      rw [show parentWithCycle = JsValue.obj
          [("type", JsValue.str "object"),
           ("properties", JsValue.obj
             [("good", JsValue.obj [("type", JsValue.str "string")]),
              ("bad", refToA)])] from rfl,
        genExample_simple_object selfRefDoc (m + 1)
          (JsValue.obj
            [("good", JsValue.obj [("type", JsValue.str "string")]),
             ("bad", refToA)]) rfl, hprops]
      rfl

/-- Claim C6 (amended): an `UnresolvedReference` — a `$ref` naming a schema
absent from both `components.schemas` and `definitions` — degrades only that
branch to the `undefined` "no value" marker, and synthesis of sibling
branches continues and still produces output.  (A cyclic reference, by
contrast, is not detected and makes the whole synthesis recurse
unboundedly.) -/
theorem claim_C6_amended (doc : OADocument) (fuel : Nat) (s k1 k2 : String)
    (good v : JsValue)
    (hs : (s == "") = false)
    (hmiss : truthy (refLookup doc (replaceFirst s "#/components/schemas/" "")) = false)
    (hgood : genExample doc (fuel + 1) good = Except.ok v)
    (hv : v.isUndef = false) :
    genExample doc (fuel + 1) (JsValue.obj [("$ref", JsValue.str s)])
        = Except.ok JsValue.undef
    ∧ genExample doc (fuel + 1 + 1) (JsValue.obj
        [("type", JsValue.str "object"),
         ("properties", JsValue.obj
           [(k1, JsValue.obj [("$ref", JsValue.str s)]), (k2, good)])])
      = Except.ok (JsValue.obj [(k2, v)]) := by
  have hdead : genExample doc (fuel + 1) (JsValue.obj [("$ref", JsValue.str s)])
      = Except.ok JsValue.undef := by
    rw [genExample_bare_ref doc fuel s hs, if_neg (by simp [hmiss])]
    rfl
  refine ⟨hdead, ?_⟩
  have hprops := synthProps_pair (genExample doc (fuel + 1)) k1 k2
    (JsValue.obj [("$ref", JsValue.str s)]) good v hdead hgood hv
  rw [genExample_simple_object doc (fuel + 1)
    (JsValue.obj [(k1, JsValue.obj [("$ref", JsValue.str s)]), (k2, good)]) rfl, hprops]
  rfl

/-- Witness for claim C6 (amended) at a concrete unresolved reference next
to a healthy string property. -/
theorem claim_C6_witness :
    genExample emptyDoc 1
        (JsValue.obj [("$ref", JsValue.str "#/components/schemas/Missing")])
      = Except.ok JsValue.undef
    ∧ genExample emptyDoc 2 (JsValue.obj
        [("type", JsValue.str "object"),
         ("properties", JsValue.obj
           [("bad", JsValue.obj [("$ref", JsValue.str "#/components/schemas/Missing")]),
            ("good", JsValue.obj [("type", JsValue.str "string")])])])
      = Except.ok (JsValue.obj [("good", JsValue.str "string")]) :=
  claim_C6_amended emptyDoc 0 "#/components/schemas/Missing" "bad" "good"
    (JsValue.obj [("type", JsValue.str "string")]) (JsValue.str "string")
    (by decide) rfl rfl rfl

/-- Claim C5 (confirmed): for every schema node carrying a literal `example`
field, the synthesizer returns that example value verbatim and unchanged,
regardless of any other fields present on the node — the `example` test is
the first branch of the precedence. -/
theorem claim_C5_example_verbatim (doc : OADocument) (fuel : Nat) (schema : JsValue)
    (h1 : truthy schema = true) (h2 : (schema.get "example").isUndef = false) :
    genExample doc (fuel + 1) schema = Except.ok (schema.get "example") := by
  simp [genExample, h1, h2]

/-- Witness for claim C5 at a concrete node carrying `example` together with
other fields (`type`, `minimum`). -/
theorem claim_C5_witness :
    genExample emptyDoc 1
        (JsValue.obj
          [("example", JsValue.num 7), ("type", JsValue.str "string"),
           ("minimum", JsValue.num 3)])
      = Except.ok (JsValue.num 7) :=
  claim_C5_example_verbatim emptyDoc 0 _ rfl rfl

/-- Claim C10 counterexample: a schema node with `type: "number"` and no
literal `example` that also carries a `properties` field is captured by the
object branch, so the synthesizer returns an object — not the claimed
`default`/`minimum`/`maximum`/`0` value (which would be `0` here). -/
theorem claim_C10_counterexample :
    genExample emptyDoc 2
        (JsValue.obj
          [("type", JsValue.str "number"),
           ("properties",
            JsValue.obj [("a", JsValue.obj [("type", JsValue.str "integer")])])])
      = Except.ok (JsValue.obj [("a", JsValue.num 0)])
    ∧ JsValue.obj [("a", JsValue.num 0)] ≠ JsValue.num 0 :=
  ⟨rfl, fun h => JsValue.noConfusion h⟩

/-- Claim C10 (amended): for every schema node with type `"number"` or
`"integer"`, no literal `example`, and none of the fields consumed by the
earlier precedence branches (`allOf`, `$ref`, `properties`), the synthesizer
returns the node's `default` if present, else its `minimum` if present, else
its `maximum` if present, else `0`, evaluated in exactly that order. -/
theorem claim_C10_amended (doc : OADocument) (fuel : Nat) (schema : JsValue)
    (h1 : truthy schema = true)
    (h2 : (schema.get "example").isUndef = true)
    (h3 : truthy (schema.get "allOf") = false)
    (h4 : truthy (schema.get "$ref") = false)
    (h5 : truthy (schema.get "properties") = false)
    (h6 : tyIs schema "number" = true ∨ tyIs schema "integer" = true) :
    genExample doc (fuel + 1) schema =
      Except.ok
        (if !(schema.get "default").isUndef then schema.get "default"
         else if !(schema.get "minimum").isUndef then schema.get "minimum"
         else if !(schema.get "maximum").isUndef then schema.get "maximum"
         else JsValue.num 0) := by
  have hty : schema.get "type" = JsValue.str "number"
      ∨ schema.get "type" = JsValue.str "integer" := by
    rcases h6 with h | h
    · exact Or.inl (tyIs_str h)
    · exact Or.inr (tyIs_str h)
  have hobj : tyIs schema "object" = false := by
    rcases hty with h | h <;> exact tyIs_of_ne h (by decide)
  have harr : tyIs schema "array" = false := by
    rcases hty with h | h <;> exact tyIs_of_ne h (by decide)
  have hstr : tyIs schema "string" = false := by
    rcases hty with h | h <;> exact tyIs_of_ne h (by decide)
  have hnum : (tyIs schema "number" || tyIs schema "integer") = true := by
    rcases h6 with h | h <;> simp [h]
  simp [genExample, h1, h2, h3, h4, genBase, hobj, h5, harr, hstr, hnum]

/-- Witness for claim C10 (amended): a concrete integer node with `minimum`
and `maximum` but no `default` synthesizes to its `minimum`. -/
theorem claim_C10_witness :
    genExample emptyDoc 1
        (JsValue.obj
          [("type", JsValue.str "integer"), ("minimum", JsValue.num 5),
           ("maximum", JsValue.num 9)])
      = Except.ok (JsValue.num 5) :=
  claim_C10_amended emptyDoc 0 _ rfl rfl rfl rfl rfl (Or.inr rfl)

/-- Claim C2 (code bug evidence): a structurally valid document whose single
operation declares `tags: []` validates fine, yet the index builder places
the operation in no bucket at all (`tags ?? [defaultTag]` keeps the empty
list), while the sibling tag collection in `parseOpenAPI` — which seeds the
collapse state — does treat the empty list as the `"default"` tag. -/
theorem claim_C2_empty_tags_dropped :
    validate jsonEmptyTags = Except.ok docEmptyTags
    ∧ pathsByTag docEmptyTags.paths = []
    ∧ collectTags docEmptyTags.paths = ["default"] :=
  ⟨rfl, rfl, rfl⟩

/-- Claim C9 counterexample: when a declared property is itself named
`additionalProp1`, the synthetic assignment overwrites it in place instead
of appending after the declared properties: the result keeps only three
keys, and the declared synthesis (`"string"`) is lost — not the claimed
declared-properties-then-three-appended layout. -/
theorem claim_C9_counterexample :
    genExample emptyDoc 2
        (JsValue.obj
          [("type", JsValue.str "object"),
           ("properties",
            JsValue.obj
              [("additionalProp1", JsValue.obj [("type", JsValue.str "string")])]),
           ("additionalProperties", JsValue.obj [("type", JsValue.str "integer")])])
      = Except.ok (JsValue.obj
          [("additionalProp1", JsValue.num 0), ("additionalProp2", JsValue.num 0),
           ("additionalProp3", JsValue.num 0)])
    ∧ JsValue.obj
          [("additionalProp1", JsValue.num 0), ("additionalProp2", JsValue.num 0),
           ("additionalProp3", JsValue.num 0)]
      ≠ JsValue.obj
          ([("additionalProp1", JsValue.str "string")] ++
           [("additionalProp1", JsValue.num 0), ("additionalProp2", JsValue.num 0),
            ("additionalProp3", JsValue.num 0)]) := by
  refine ⟨rfl, ?_⟩
  intro h
  injection h with h
  simp at h

/-- Claim C9 (amended): for every object schema node whose
`additionalProperties` field is itself a schema object, provided the node
reaches the object branch (no `example`, `allOf` or `$ref`) and the declared
properties do not themselves use the names `additionalProp1..3`, the
synthesizer appends exactly three synthetic properties named
`additionalProp1`, `additionalProp2`, `additionalProp3` — each equal to the
synthesis of the `additionalProperties` schema — after the declared
properties; a `title`/`description`, when present, only sets the auxiliary
`__comment` field on top of that layout. -/
theorem claim_C9_amended (doc : OADocument) (fuel : Nat) (schema : JsValue)
    (fields0 : List (String × JsValue)) (v : JsValue)
    (h1 : truthy schema = true)
    (h2 : (schema.get "example").isUndef = true)
    (h3 : truthy (schema.get "allOf") = false)
    (h4 : truthy (schema.get "$ref") = false)
    (h5 : (tyIs schema "object" || truthy (schema.get "properties")) = true)
    (hap1 : truthy (schema.get "additionalProperties") = true)
    (hap2 : typeofObjLike (schema.get "additionalProperties") = true)
    (hfp : (if truthy (schema.get "properties") then
              synthProps (genExample doc fuel) (schema.get "properties")
            else pure []) = Except.ok fields0)
    (hv : genExample doc fuel (schema.get "additionalProperties") = Except.ok v)
    (hfresh : ∀ kv ∈ fields0,
      kv.1 ≠ "additionalProp1" ∧ kv.1 ≠ "additionalProp2" ∧ kv.1 ≠ "additionalProp3") :
    genExample doc (fuel + 1) schema =
      Except.ok (JsValue.obj
        (if truthy (jsNullish (schema.get "title") (schema.get "description")) then
          setKey
            (fields0 ++
              [("additionalProp1", v), ("additionalProp2", v), ("additionalProp3", v)])
            "__comment" (jsNullish (schema.get "title") (schema.get "description"))
         else
          fields0 ++
            [("additionalProp1", v), ("additionalProp2", v),
             ("additionalProp3", v)])) := by
  have e1 : setKey fields0 "additionalProp1" v = fields0 ++ [("additionalProp1", v)] :=
    setKey_eq_append v (fun kv hkv => (hfresh kv hkv).1)
  have e2 : setKey (fields0 ++ [("additionalProp1", v)]) "additionalProp2" v
      = fields0 ++ [("additionalProp1", v)] ++ [("additionalProp2", v)] := by
    refine setKey_eq_append v ?_
    intro kv hkv
    rcases List.mem_append.1 hkv with hm | hm
    · exact (hfresh kv hm).2.1
    · simp only [List.mem_singleton] at hm
      subst hm
      simp
  have e3 : setKey (fields0 ++ [("additionalProp1", v)] ++ [("additionalProp2", v)])
      "additionalProp3" v
      = fields0 ++ [("additionalProp1", v)] ++ [("additionalProp2", v)]
        ++ [("additionalProp3", v)] := by
    refine setKey_eq_append v ?_
    intro kv hkv
    rcases List.mem_append.1 hkv with hm | hm
    · rcases List.mem_append.1 hm with hm2 | hm2
      · exact (hfresh kv hm2).2.2
      · simp only [List.mem_singleton] at hm2
        subst hm2
        simp
    · simp only [List.mem_singleton] at hm
      subst hm
      simp
  cases hpv : truthy (schema.get "properties") with
  | true =>
    rw [hpv, if_pos rfl] at hfp
    simp only [genExample, h1, h2, h3, h4, genBase, h5, hap1, hap2, hpv,
      Bool.not_true, Bool.not_false, Bool.false_eq_true, Bool.and_self,
      if_false, if_true, hfp, except_bind_ok, hv, e1, e2, e3]
    simp [List.append_assoc]
  | false =>
    rw [hpv] at hfp
    simp only [Bool.false_eq_true, if_false] at hfp
    have hf0 : fields0 = [] := by
      have := hfp
      simp only [pure, Except.pure, Except.ok.injEq] at this
      exact this.symm
    subst hf0
    have hobj : tyIs schema "object" = true := by simpa [hpv] using h5
    simp only [List.nil_append] at e1 e2 e3
    simp [genExample, h1, h2, h3, h4, genBase, h5, hobj, hap1, hap2, hpv, hv,
      e1, e2, e3, bind, Except.bind, pure, Except.pure, setKey]

/-- Witness for claim C9 (amended) at two concrete object schemas with one
declared property `name` and an integer-typed `additionalProperties`
schema: one without a `title` and one with a `title` (which only adds the
`__comment` field after the three appended synthetic properties). -/
theorem claim_C9_witness :
    genExample emptyDoc 2
        (JsValue.obj
          [("type", JsValue.str "object"),
           ("properties",
            JsValue.obj [("name", JsValue.obj [("type", JsValue.str "string")])]),
           ("additionalProperties", JsValue.obj [("type", JsValue.str "integer")])])
      = Except.ok (JsValue.obj
          ([("name", JsValue.str "string")] ++
           [("additionalProp1", JsValue.num 0), ("additionalProp2", JsValue.num 0),
            ("additionalProp3", JsValue.num 0)]))
    ∧ genExample emptyDoc 2
        (JsValue.obj
          [("type", JsValue.str "object"),
           ("properties",
            JsValue.obj [("name", JsValue.obj [("type", JsValue.str "string")])]),
           ("additionalProperties", JsValue.obj [("type", JsValue.str "integer")]),
           ("title", JsValue.str "T")])
      = Except.ok (JsValue.obj
          ([("name", JsValue.str "string")] ++
           [("additionalProp1", JsValue.num 0), ("additionalProp2", JsValue.num 0),
            ("additionalProp3", JsValue.num 0)] ++
           [("__comment", JsValue.str "T")])) :=
  ⟨claim_C9_amended emptyDoc 1
    (JsValue.obj
      [("type", JsValue.str "object"),
       ("properties",
        JsValue.obj [("name", JsValue.obj [("type", JsValue.str "string")])]),
       ("additionalProperties", JsValue.obj [("type", JsValue.str "integer")])])
    [("name", JsValue.str "string")] (JsValue.num 0)
    rfl rfl rfl rfl rfl rfl rfl rfl rfl
    (by
      intro kv hkv
      simp only [List.mem_singleton] at hkv
      subst hkv
      exact ⟨by decide, by decide, by decide⟩),
   claim_C9_amended emptyDoc 1
    (JsValue.obj
      [("type", JsValue.str "object"),
       ("properties",
        JsValue.obj [("name", JsValue.obj [("type", JsValue.str "string")])]),
       ("additionalProperties", JsValue.obj [("type", JsValue.str "integer")]),
       ("title", JsValue.str "T")])
    [("name", JsValue.str "string")] (JsValue.num 0)
    rfl rfl rfl rfl rfl rfl rfl rfl rfl
    (by
      intro kv hkv
      simp only [List.mem_singleton] at hkv
      subst hkv
      exact ⟨by decide, by decide, by decide⟩)⟩

end AI2Cursor
